import Mathlib

/-!
# Verification of the `explorer` static file server

Shallow embedding of `src/lib/static-server.js` (class `StaticServer`).

Conventions of the embedding:
* JavaScript strings are Lean `String`s; all parsing helpers work on the
  underlying `List Char` so that every recursion is structural and every
  concrete evaluation reduces in the kernel.
* JavaScript numbers that can be `NaN` are modelled as `Option Int`
  (`none` = `NaN`), with the usual `NaN`-propagating arithmetic and the
  "every comparison with `NaN` is false" rule.
* File contents are byte lists (`List (Fin 256)`).
* Fallible operations (`fsp.stat`, `fsp.readFile`, `decodeURIComponent`,
  `fs.createReadStream` option validation) run in `Except String`; the
  top-level `handleRequest` catch-all maps any error to the 500 response.
* Node/browser builtins that the repository only calls (never defines) are
  modelled at the fidelity the verified claims need; each such model is
  marked `Modelled:` in its doc comment.
-/

set_option autoImplicit false

namespace Explorer

/-- A byte of file content. -/
abbrev Byte := Fin 256

/-- Truncate a natural number to a byte. -/
def byteOf (n : Nat) : Byte := ⟨n % 256, by omega⟩

/-- Modelled: the byte encoding of a string (all strings hashed or served by
the server in the verified claims are ASCII, where UTF-8 is the identity on
code points). -/
def strBytes (s : String) : List Byte := s.data.map (fun c => byteOf c.toNat)

/-! ## JavaScript string primitives (on `List Char`) -/

/-- `a` is an initial segment of `b` (decidable, structural). -/
def listIsPre : List Char → List Char → Bool
  | [], _ => true
  | _ :: _, [] => false
  | a :: as, b :: bs => a = b && listIsPre as bs

/-- Modelled: `String.prototype.includes` — substring test. -/
def jsIncludes (hay needle : List Char) : Bool :=
  match hay with
  | [] => needle.isEmpty
  | _ :: rest => listIsPre needle hay || jsIncludes rest needle

/-- Modelled: `String.prototype.replace` with a plain-text pattern and empty
replacement — removes the first occurrence of `pat`
(`range.replace(/bytes=/, '')` in `parseRange`). -/
def replaceFirstL (pat : List Char) : List Char → List Char
  | [] => []
  | c :: rest =>
    if listIsPre pat (c :: rest) then (c :: rest).drop pat.length
    else c :: replaceFirstL pat rest

/-- Modelled: `String.prototype.split` with a single-character separator. -/
def splitCharL (sep : Char) : List Char → List (List Char)
  | [] => [[]]
  | c :: rest =>
    if c = sep then [] :: splitCharL sep rest
    else
      match splitCharL sep rest with
      | [] => [[c]]
      | h :: t => (c :: h) :: t

/-- ASCII decimal digit test (the character class accepted by `parseInt`). -/
def isDigitChar (c : Char) : Bool := decide (48 ≤ c.toNat) && decide (c.toNat ≤ 57)

/-- Modelled: the whitespace skipped by `parseInt` (common ASCII cases). -/
def jsWhitespace (c : Char) : Bool :=
  decide (c.toNat = 32) || decide (c.toNat = 9) || decide (c.toNat = 10) ||
    decide (c.toNat = 13) || decide (c.toNat = 11) || decide (c.toNat = 12)

/-- Numeric value of a list of decimal digit characters. -/
def digitsToNat (ds : List Char) : Nat :=
  ds.foldl (fun a c => a * 10 + (c.toNat - 48)) 0

/-- Leading run of decimal digits, or `none` when there is none. -/
def parseNatDigits (cs : List Char) : Option Nat :=
  let ds := cs.takeWhile isDigitChar
  if ds.isEmpty then none else some (digitsToNat ds)

/-- Modelled: `parseInt(x, 10)` where `x` may be `undefined` (the missing
second piece of a split); `none` is `NaN`. -/
def parseIntJS : Option (List Char) → Option Int
  | none => none
  | some cs =>
    match cs.dropWhile jsWhitespace with
    | [] => none
    | c :: rest =>
      if c = '-' then (parseNatDigits rest).map (fun n => -(n : Int))
      else if c = '+' then (parseNatDigits rest).map (fun n => (n : Int))
      else (parseNatDigits (c :: rest)).map (fun n => (n : Int))

/-! ## `NaN`-propagating number helpers -/

/-- `size - e` with `NaN` propagation. -/
def jsSubNaN (size : Int) : Option Int → Option Int
  | none => none
  | some e => some (size - e)

/-- `a - b` with `NaN` propagation (used for `end - start`). -/
def jsSub2 : Option Int → Option Int → Option Int
  | some a, some b => some (a - b)
  | _, _ => none

/-- `a + n` with `NaN` propagation. -/
def jsAddNaN : Option Int → Int → Option Int
  | none, _ => none
  | some a, n => some (a + n)

/-- `v >= size` where `v` may be `NaN`: any comparison with `NaN` is false. -/
def jsGeB : Option Int → Int → Bool
  | none, _ => false
  | some v, size => decide (size ≤ v)

/-- Modelled: `String(x)` on a number that may be `NaN`. -/
def optIntStr : Option Int → String
  | none => "NaN"
  | some v => toString v

/-! ## `parseRange` -/

/-- The object returned by `parseRange` — both fields are JavaScript numbers
that may be `NaN`.  The source field named `end` is called `stop` here
(`end` is a Lean keyword). -/
structure RangeJS where
  start : Option Int
  stop : Option Int
  deriving DecidableEq, Repr

/-- `StaticServer.parseRange(range, size)`:

```js
const parts = range.replace(/bytes=/, '').split('-');
let start = parseInt(parts[0], 10);
let end = parseInt(parts[1], 10);
if (isNaN(start)) { start = size - end; end = size - 1; }
else if (isNaN(end)) { end = size - 1; }
return start >= size || end >= size ? null : { start, end };
```
-/
def parseRange (range : List Char) (size : Int) : Option RangeJS :=
  let parts := splitCharL '-' (replaceFirstL "bytes=".data range)
  let start0 := parseIntJS parts[0]?
  let end0 := parseIntJS parts[1]?
  let se : Option Int × Option Int :=
    match start0, end0 with
    | none, e0 => (jsSubNaN size e0, some (size - 1))
    | some s, none => (some s, some (size - 1))
    | some s, some e0 => (some s, some e0)
  if jsGeB se.1 size || jsGeB se.2 size then none else some ⟨se.1, se.2⟩

example : parseRange "bytes=0-99".data 200 = some ⟨some 0, some 99⟩ := by decide
example : parseRange "bytes=-500".data 100 = some ⟨some (-400), some 99⟩ := by decide
example : parseRange "bytes=500-".data 1000 = some ⟨some 500, some 999⟩ := by decide
example : parseRange "bytes=abc-xyz".data 100 = some ⟨none, some 99⟩ := by decide
example : parseRange "bytes=5-2".data 10 = some ⟨some 5, some 2⟩ := by decide
example : parseRange "bytes=100-".data 100 = none := by decide
example : parseRange "bytes=".data 100 = some ⟨none, some 99⟩ := by decide

/-! ## URL and path helpers -/

/-- Join a list of segments with a separator character. -/
def joinSep (sep : Char) : List (List Char) → List Char
  | [] => []
  | [s] => s
  | s :: rest => s ++ sep :: joinSep sep rest

/-- Lowercase a character list. -/
def toLowerL (l : List Char) : List Char := l.map Char.toLower

/-- A WHATWG single-dot path segment (`.` or `%2e`, case-insensitive). -/
def isSingleDotSeg (s : List Char) : Bool :=
  toLowerL s = ".".data || toLowerL s = "%2e".data

/-- A WHATWG double-dot path segment (`..`, `.%2e`, `%2e.`, `%2e%2e`). -/
def isDoubleDotSeg (s : List Char) : Bool :=
  toLowerL s = "..".data || toLowerL s = ".%2e".data ||
    toLowerL s = "%2e.".data || toLowerL s = "%2e%2e".data

/-- WHATWG dot-segment removal over a segment list; a trailing dot segment
leaves a trailing empty segment (trailing slash). -/
def removeDotSegs (acc : List (List Char)) : List (List Char) → List (List Char)
  | [] => acc
  | [s] =>
    if isDoubleDotSeg s then acc.dropLast ++ [[]]
    else if isSingleDotSeg s then acc ++ [[]]
    else acc ++ [s]
  | s :: rest =>
    if isDoubleDotSeg s then removeDotSegs acc.dropLast rest
    else if isSingleDotSeg s then removeDotSegs acc rest
    else removeDotSegs (acc ++ [s]) rest

/-- Modelled: `new URL(req.url, 'http://host').pathname` for origin-form
request targets — cut the query/fragment, force a leading slash, and apply
the URL parser's dot-segment removal (which recognizes `%2e` forms before
any percent-decoding).  The parser's re-encoding of exotic characters is not
modelled (no verified claim depends on it). -/
def urlPathname (url : String) : String :=
  let p := url.data.takeWhile (fun c => ¬ (c = '?' ∨ c = '#'))
  let p := if listIsPre "/".data p then p else '/' :: p
  let segs := splitCharL '/' (p.drop 1)
  ⟨'/' :: joinSep '/' (removeDotSegs [] segs)⟩

example : urlPathname "/a/../b?q=1" = "/b" := by decide
example : urlPathname "/a/%2e%2e/b" = "/b" := by decide
example : urlPathname "/..%2f..%2fetc" = "/..%2f..%2fetc" := by decide
example : urlPathname "/a/.." = "/" := by decide

/-- Hexadecimal value of a character, if any. -/
def hexVal (c : Char) : Option Nat :=
  if 48 ≤ c.toNat ∧ c.toNat ≤ 57 then some (c.toNat - 48)
  else if 97 ≤ c.toNat ∧ c.toNat ≤ 102 then some (c.toNat - 87)
  else if 65 ≤ c.toNat ∧ c.toNat ≤ 70 then some (c.toNat - 55)
  else none

/-- Modelled: `decodeURIComponent`, restricted to single-byte escapes
(`%XX` becomes the character with code `XX`; a malformed escape throws,
i.e. returns `none`).  Multi-byte UTF-8 recombination is not modelled — the
verified claims only involve ASCII escapes. -/
def decodeURIComponentL : List Char → Option (List Char)
  | [] => some []
  | '%' :: a :: b :: rest =>
    match hexVal a, hexVal b with
    | some ha, some hb =>
      (decodeURIComponentL rest).map (fun r => Char.ofNat (16 * ha + hb) :: r)
    | _, _ => none
  | '%' :: _ => none
  | c :: rest => (decodeURIComponentL rest).map (fun r => c :: r)

def decodeURIComponent (s : String) : Option String :=
  (decodeURIComponentL s.data).map List.asString

example : decodeURIComponent "/..%2f..%2fetc" = some "/../../etc" := by decide
example : decodeURIComponent "/a%" = none := by decide

/-- One step of `path.normalize` segment resolution: `.` is dropped, `..`
pops a previous real segment, an unmatched `..` is kept for relative paths
and dropped for absolute ones. -/
def normSegs (isAbs : Bool) (acc : List (List Char)) : List (List Char) → List (List Char)
  | [] => acc
  | s :: rest =>
    if s = ".".data then normSegs isAbs acc rest
    else if s = "..".data then
      if acc ≠ [] ∧ acc.getLast? ≠ some "..".data then normSegs isAbs acc.dropLast rest
      else if isAbs then normSegs isAbs acc rest
      else normSegs isAbs (acc ++ [s]) rest
    else normSegs isAbs (acc ++ [s]) rest

/-- Modelled: `path.posix.normalize` — resolve `.`/`..`/repeated separators,
preserving a trailing slash. -/
def pathNormalize (p : String) : String :=
  if p.data = [] then "." else
  let isAbs := listIsPre "/".data p.data
  let trail := p.data.getLast? = some '/'
  let segs := (splitCharL '/' p.data).filter (· ≠ [])
  let out := normSegs isAbs [] segs
  let body := joinSep '/' out
  let res : List Char :=
    if isAbs then '/' :: body
    else if body = [] then ".".data
    else body
  if trail ∧ res.getLast? ≠ some '/' then ⟨res ++ ['/']⟩ else ⟨res⟩

example : pathNormalize "/srv//../etc" = "/etc" := by decide
example : pathNormalize "/srv/root/../../etc/passwd" = "/etc/passwd" := by decide
example : pathNormalize "/a/b/" = "/a/b/" := by decide
example : pathNormalize "/" = "/" := by decide
example : pathNormalize "a/.." = "." := by decide

/-- Modelled: `path.posix.join` of two pieces (join then normalize). -/
def pathJoin (a b : String) : String :=
  if a.data = [] ∧ b.data = [] then "."
  else if a.data = [] then pathNormalize b
  else if b.data = [] then pathNormalize a
  else pathNormalize ⟨a.data ++ '/' :: b.data⟩

example : pathJoin "/srv/root" "/../../etc/passwd" = "/etc/passwd" := by decide
example : pathJoin "/srv/root" "/a.txt" = "/srv/root/a.txt" := by decide

/-- Modelled: `String.prototype.startsWith`. -/
def startsWithS (s pre : String) : Bool := listIsPre pre.data s.data

/-- Modelled: `path.extname` — the suffix of the basename from its last dot,
empty when the last dot is the basename's first character or the basename is
`..`. -/
def extname (p : String) : String :=
  let base := (splitCharL '/' p.data).getLastD []
  if base = "..".data then "" else
  match (List.range base.length).filter (fun i => base.getD i ' ' = '.') with
  | [] => ""
  | idxs =>
    let i := idxs.getLastD 0
    if i = 0 then "" else ⟨base.drop i⟩

example : extname "/srv/a.tar.gz" = ".gz" := by decide
example : extname "/srv/.bashrc" = "" := by decide
example : extname "/srv/a.js" = ".js" := by decide
example : extname "/srv/noext" = "" := by decide

/-- Lowercase a string. -/
def toLowerStr (s : String) : String := ⟨toLowerL s.data⟩

/-! ## Models of Node builtins: dates, md5, gzip, mime -/

/-- Two-digit zero-padded decimal. -/
def pad2 (n : Nat) : String := if n < 10 then "0" ++ toString n else toString n

def monthName : Nat → String
  | 1 => "Jan" | 2 => "Feb" | 3 => "Mar" | 4 => "Apr" | 5 => "May" | 6 => "Jun"
  | 7 => "Jul" | 8 => "Aug" | 9 => "Sep" | 10 => "Oct" | 11 => "Nov" | _ => "Dec"

def dayName : Nat → String
  | 0 => "Sun" | 1 => "Mon" | 2 => "Tue" | 3 => "Wed" | 4 => "Thu" | 5 => "Fri" | _ => "Sat"

/-- Proleptic-Gregorian civil date from days since the Unix epoch
(`(year, month, day)`). -/
def civilFromDays (z0 : Int) : Int × Nat × Nat :=
  let z := z0 + 719468
  let era := Int.fdiv z 146097
  let doe := (z - era * 146097).toNat
  let yoe := (doe - doe / 1460 + doe / 36524 - doe / 146096) / 365
  let y := (yoe : Int) + era * 400
  let doy := doe - (365 * yoe + yoe / 4 - yoe / 100)
  let mp := (5 * doy + 2) / 153
  let d := doy - (153 * mp + 2) / 5 + 1
  let m := if mp < 10 then mp + 3 else mp - 9
  (if m ≤ 2 then y + 1 else y, m, d)

/-- Modelled: `Date.prototype.toUTCString()` on a date holding `ms`
milliseconds since the Unix epoch (RFC-1123 shape, e.g.
`Thu, 01 Jan 1970 00:00:00 GMT`). -/
def toUTCString (ms : Int) : String :=
  let secs := Int.fdiv ms 1000
  let days := Int.fdiv secs 86400
  let sod := (secs - days * 86400).toNat
  let wd := ((days + 4).emod 7).toNat
  let c := civilFromDays days
  dayName wd ++ ", " ++ pad2 c.2.2 ++ " " ++ monthName c.2.1 ++ " " ++ toString c.1 ++
    " " ++ pad2 (sod / 3600) ++ ":" ++ pad2 (sod % 3600 / 60) ++ ":" ++ pad2 (sod % 60) ++ " GMT"

example : toUTCString 0 = "Thu, 01 Jan 1970 00:00:00 GMT" := by decide

def hexDigitChar (n : Nat) : Char :=
  match n with
  | 0 => '0' | 1 => '1' | 2 => '2' | 3 => '3' | 4 => '4' | 5 => '5' | 6 => '6'
  | 7 => '7' | 8 => '8' | 9 => '9' | 10 => 'a' | 11 => 'b' | 12 => 'c' | 13 => 'd'
  | 14 => 'e' | _ => 'f'

/-- Hex encoding of one byte (two characters). -/
def byteHex (b : Byte) : List Char := [hexDigitChar (b.val / 16), hexDigitChar (b.val % 16)]

def hexBytes : List Byte → List Char
  | [] => []
  | b :: rest => byteHex b ++ hexBytes rest

/-- Modelled: `crypto.createHash('md5').update(bytes).digest('hex')`.  The
digest is treated as an ideal (collision-free) fingerprint of its input: we
use the hex encoding of the input bytes, which has exactly the properties
the claims rely on — determinism and injectivity. -/
def md5B (bs : List Byte) : String := ⟨hexBytes bs⟩

/-- Modelled: the gzip recoding performed by `zlib.createGzip()` piping —
an injective transformation of the source bytes, marked by the gzip magic
bytes `0x1f 0x8b`. -/
def gzipB (bs : List Byte) : List Byte := byteOf 31 :: byteOf 139 :: bs

/-- Modelled: the `mime` package's `getType`, restricted to the extensions
exercised by the claims (`null` for unknown). -/
def mimeGetType (p : String) : Option String :=
  match toLowerStr (extname p) with
  | ".html" => some "text/html"
  | ".htm" => some "text/html"
  | ".css" => some "text/css"
  | ".js" => some "text/javascript"
  | ".json" => some "application/json"
  | ".xml" => some "application/xml"
  | ".txt" => some "text/plain"
  | ".svg" => some "image/svg+xml"
  | ".png" => some "image/png"
  | _ => none

/-! ## Response headers as an ordered key/value map

JavaScript object assignment `headers[k] = v` replaces the value of an
existing key and otherwise appends the key. -/

abbrev HeadersT := List (String × String)

def hset : HeadersT → String → String → HeadersT
  | [], k, v => [(k, v)]
  | (k', v') :: rest, k, v =>
    if k' = k then (k, v) :: rest else (k', v') :: hset rest k v

def hfind : HeadersT → String → Option String
  | [], _ => none
  | (k', v') :: rest, k => if k' = k then some v' else hfind rest k

/-! ## Data model -/

/-- The server configuration (`this.config`). -/
structure StaticConfig where
  port : Nat
  root : String
  index : String

/-- The request fields the server reads (`req.url`, `req.headers.host`,
`req.headers.range`, `req.headers['if-none-match']`,
`req.headers['if-modified-since']`, `req.headers['accept-encoding']`).
A missing header is `none`. -/
structure Request where
  url : String
  host : Option String
  range : Option String
  ifNoneMatch : Option String
  ifModifiedSince : Option String
  acceptEncoding : Option String

/-- What the filesystem holds at a path: a regular file with its bytes and
mtime, a directory (with its entries, and whether `readdir` succeeds), or a
path whose `stat` fails with a non-`ENOENT` error (permissions, I/O). -/
inductive FsEntry where
  | file (content : List Byte) (mtimeMs : Int)
  | dir (entries : List String) (listable : Bool)
  | ioError
  deriving DecidableEq

/-- The filesystem collaborator: absent paths map to `none` (`ENOENT`). -/
abbrev Fs := String → Option FsEntry

/-- The `fs.Stats` fields the server reads. -/
structure Stats where
  size : Nat
  mtimeMs : Int
  isDir : Bool
  deriving DecidableEq, Repr

/-- One finished HTTP response: the status and headers passed to
`res.writeHead` (captured at the moment of that call) and the bytes that
are streamed to the client. -/
structure Response where
  status : Nat
  headers : HeadersT
  body : List Byte
  deriving DecidableEq, Repr

/-! ## The server pipeline (`StaticServer` methods) -/

/-- `getPathStats`: `fsp.stat` with `ENOENT` swallowed into `null` and every
other failure rethrown. -/
def getPathStats (fs : Fs) (requestPath : String) : Except String (Option Stats) :=
  match fs requestPath with
  | none => .ok none
  | some .ioError => .error "EACCES"
  | some (.file content mtimeMs) => .ok (some ⟨content.length, mtimeMs, false⟩)
  | some (.dir _ _) => .ok (some ⟨0, 0, true⟩)

/-- `fsp.readFile`: only regular files yield bytes; a directory throws
`EISDIR`, an absent path `ENOENT`. -/
def readFileM (fs : Fs) (filePath : String) : Except String (List Byte) :=
  match fs filePath with
  | some (.file content _) => .ok content
  | some (.dir _ _) => .error "EISDIR"
  | some .ioError => .error "EACCES"
  | none => .error "ENOENT"

/-- `getRequestPath`: reject when `req.url` is falsy or the `Host` header is
missing, percent-decode the URL's pathname, join it onto the configured
root, normalize, and keep the result only when it still begins with the
root. -/
def getRequestPath (cfg : StaticConfig) (req : Request) : Except String (Option String) :=
  if req.url = "" ∨ req.host.isNone then .ok none
  else
    match decodeURIComponent (urlPathname req.url) with
    | none => .error "URIError"
    | some decoded =>
      let requestPath := pathNormalize (pathJoin cfg.root decoded)
      .ok (if startsWithS requestPath cfg.root then some requestPath else none)

/-- `getETag`: files under 1 MiB are fingerprinted by hashing their entire
content; larger files by hashing the string `` `${size}-${mtime}` ``. -/
def getETag (fs : Fs) (filePath : String) (stats : Stats) : Except String String :=
  if stats.size < 1024 * 1024 then
    match readFileM fs filePath with
    | .error e => .error e
    | .ok content => .ok (md5B content)
  else .ok (md5B (strBytes (toString stats.size ++ "-" ++ toString stats.mtimeMs)))

/-- The fixed allow-list of compressible extensions. -/
def compressibleExtensions : List String :=
  [".html", ".htm", ".css", ".js", ".json", ".xml", ".txt", ".svg", ".webmanifest"]

/-- `shouldCompress`: gzip only when the `Accept-Encoding` header contains
the substring `gzip` and the file extension is in the allow-list. -/
def shouldCompress (req : Request) (filePath : String) : Bool :=
  match req.acceptEncoding with
  | none => false
  | some acceptEncoding =>
    if ¬ jsIncludes acceptEncoding.data "gzip".data then false
    else decide (toLowerStr (extname filePath) ∈ compressibleExtensions)

/-- `sendErrorResponse`: plain-text status message body. -/
def sendErrorResponse (statusCode : Nat) (message : String) : Response :=
  { status := statusCode, headers := [("Content-Type", "text/plain")], body := strBytes message }

/-- `getResponseHeaders`: content type, fingerprint, formatted mtime, the
type-dependent `Cache-Control`, and the conditional-header comparison. -/
def getResponseHeaders (fs : Fs) (req : Request) (filePath : String) (stats : Stats) :
    Except String (HeadersT × Bool) :=
  let ext := toLowerStr (extname filePath)
  let mimeType := (mimeGetType filePath).getD "application/octet-stream"
  match getETag fs filePath stats with
  | .error e => .error e
  | .ok etag =>
    let lastModified := toUTCString stats.mtimeMs
    let isCached := req.ifNoneMatch == some etag || req.ifModifiedSince == some lastModified
    .ok ([("Content-Type", mimeType),
          ("ETag", etag),
          ("Last-Modified", lastModified),
          ("Cache-Control",
            if ext = ".html" then "no-cache, must-revalidate"
            else "public, max-age=31536000, immutable"),
          ("Accept-Ranges", "bytes")], isCached)

/-- Modelled: `fs.createReadStream(filePath, { start, end })` — Node
validates that `start` and `end` are nonnegative integers with
`start <= end` (otherwise it throws `ERR_OUT_OF_RANGE`; in particular a
`NaN` bound throws), then yields the inclusive byte slice, clipped at the
end of the file. -/
def createReadStreamSlice (fs : Fs) (filePath : String) (start stop : Option Int) :
    Except String (List Byte) :=
  match start, stop with
  | some s, some e =>
    if 0 ≤ s ∧ s ≤ e then
      match readFileM fs filePath with
      | .error err => .error err
      | .ok content => .ok ((content.drop s.toNat).take (e - s + 1).toNat)
    else .error "ERR_OUT_OF_RANGE"
  | _, _ => .error "ERR_OUT_OF_RANGE"

/-- `sendRangeResponse`: parse the `Range` header; `null` means 416.
Otherwise the `Content-Range`/`Content-Length` headers are written and
`res.writeHead(206, headers)` captures the header map *at that point*; the
later `headers['Content-Encoding'] = 'gzip'` assignment in the compression
branch happens after `writeHead` and therefore never reaches the response.
The streamed body is gzip-recoded when `shouldCompress` holds. -/
def sendRangeResponse (fs : Fs) (req : Request) (filePath : String)
    (headers : HeadersT) (stats : Stats) : Except String Response :=
  match parseRange (req.range.getD "").data (stats.size : Int) with
  | none => .ok (sendErrorResponse 416 "Range Not Satisfiable")
  | some r =>
    let headers := hset headers "Content-Range"
      ("bytes " ++ optIntStr r.start ++ "-" ++ optIntStr r.stop ++ "/" ++ toString stats.size)
    let headers := hset headers "Content-Length" (optIntStr (jsAddNaN (jsSub2 r.stop r.start) 1))
    -- res.writeHead(206, headers): `headers` is the snapshot that is sent
    match createReadStreamSlice fs filePath r.start r.stop with
    | .error e => .error e
    | .ok body =>
      if shouldCompress req filePath then
        -- headers['Content-Encoding'] = 'gzip' — assigned after writeHead,
        -- mutating only the local object: the sent snapshot is unchanged
        .ok { status := 206, headers := headers, body := gzipB body }
      else
        .ok { status := 206, headers := headers, body := body }

/-- `sendFileResponse`: status 200; the compression branch sets
`Content-Encoding: gzip` (before `writeHead`) and streams gzip-recoded
bytes, the plain branch sets `Content-Length` and streams the raw bytes. -/
def sendFileResponse (fs : Fs) (req : Request) (filePath : String)
    (headers : HeadersT) (stats : Stats) : Except String Response :=
  match readFileM fs filePath with
  | .error e => .error e
  | .ok content =>
    if shouldCompress req filePath then
      .ok { status := 200, headers := hset headers "Content-Encoding" "gzip",
            body := gzipB content }
    else
      .ok { status := 200, headers := hset headers "Content-Length" (toString stats.size),
            body := content }

/-- `generateDirectoryIndex`: list the directory and build the HTML page;
any failure inside the `try` (unreadable directory, undecodable request
pathname) yields `null`. -/
def generateDirectoryIndex (fs : Fs) (directoryPath : String) (pathname : String) :
    Option String :=
  match fs directoryPath with
  | some (.dir entries true) =>
    match decodeURIComponent pathname with
    | some decodedPath =>
      let list := String.join (entries.map (fun f =>
        "<li><a href=\"" ++ pathJoin pathname f ++ "\">" ++ f ++ "</a></li>"))
      some ("<!DOCTYPE html><html lang=\"zh\"><head><meta charset=\"UTF-8\"></head><body><h1>Index of "
        ++ decodedPath ++ "</h1><ul>" ++ list ++ "</ul></body></html>")
    | none => none
  | _ => none

/-- The tail of `handleRequest` once a file's stats are in hand: compute the
headers, short-circuit on a valid client cache, then dispatch on the
truthiness of the `Range` header. -/
def finishRequest (fs : Fs) (req : Request) (requestPath : String) (stats : Stats) :
    Except String Response :=
  match getResponseHeaders fs req requestPath stats with
  | .error e => .error e
  | .ok (headers, isCached) =>
    if isCached then .ok { status := 304, headers := [], body := [] }
    else if req.range.getD "" ≠ "" then sendRangeResponse fs req requestPath headers stats
    else sendFileResponse fs req requestPath headers stats

/-- `handleRequest` up to its `catch`: resolve the path (403 on rejection),
stat it (404 when absent), redirect directories to their index file or a
generated listing (403 when neither exists), then serve the file. -/
def handleRequestE (cfg : StaticConfig) (fs : Fs) (req : Request) : Except String Response :=
  match getRequestPath cfg req with
  | .error e => .error e
  | .ok none => .ok (sendErrorResponse 403 "403 Forbidden")
  | .ok (some requestPath) =>
    match getPathStats fs requestPath with
    | .error e => .error e
    | .ok stats0 =>
      match stats0 with
      | some st =>
        if st.isDir then
          let indexFilePath := pathJoin requestPath cfg.index
          match getPathStats fs indexFilePath with
          | .error e => .error e
          | .ok none =>
            match generateDirectoryIndex fs requestPath (urlPathname req.url) with
            | some directoryIndex =>
              .ok { status := 200, headers := [("Content-Type", "text/html")],
                    body := strBytes directoryIndex }
            | none => .ok (sendErrorResponse 403 "403 Forbidden")
          | .ok (some st2) => finishRequest fs req indexFilePath st2
        else finishRequest fs req requestPath st
      | none => .ok (sendErrorResponse 404 "404 Not Found")

/-- `handleRequest` with its `catch`: any thrown error becomes the 500
response. -/
def handleRequest (cfg : StaticConfig) (fs : Fs) (req : Request) : Response :=
  match handleRequestE cfg fs req with
  | .ok res => res
  | .error _ => sendErrorResponse 500 "500 Internal Server Error"

/-! ## Concrete fixtures for witnesses and counterexamples -/

/-- A concrete configuration. -/
def cfgW : StaticConfig := ⟨3000, "/srv/root", "index.html"⟩

/-- Twelve known bytes. -/
def bytes12 : List Byte := (List.range 12).map byteOf

/-- A concrete filesystem: a 12-byte `a.js`, a 12-byte `a.png`, a 5-byte
`a.txt`, a path whose `stat` fails with a permissions error, and a
directory without an index file. -/
def fsW : Fs := fun p =>
  if p = "/srv/root/a.js" then some (.file bytes12 0)
  else if p = "/srv/root/a.png" then some (.file bytes12 0)
  else if p = "/srv/root/a.txt" then some (.file (strBytes "hello") 0)
  else if p = "/srv/root/b.txt" then some (.file (strBytes "hellp") 0)
  else if p = "/srv/root/locked" then some .ioError
  else if p = "/srv/root/d" then some (.dir ["x.txt"] true)
  else none

/-- A request for `u` with the given optional headers
(`Range`, `If-None-Match`, `Accept-Encoding`). -/
def mkReq (u : String) (rg inm ae : Option String) : Request :=
  { url := u, host := some "localhost", range := rg, ifNoneMatch := inm,
    ifModifiedSince := none, acceptEncoding := ae }

/-- A plain GET request for `u` with no optional headers. -/
def baseReq (u : String) : Request := mkReq u none none none

example :
    handleRequest cfgW fsW (mkReq "/a.js" (some "bytes=0-9") none (some "gzip")) =
    { status := 206,
      headers := [("Content-Type", "text/javascript"),
                  ("ETag", md5B bytes12),
                  ("Last-Modified", "Thu, 01 Jan 1970 00:00:00 GMT"),
                  ("Cache-Control", "public, max-age=31536000, immutable"),
                  ("Accept-Ranges", "bytes"),
                  ("Content-Range", "bytes 0-9/12"),
                  ("Content-Length", "10")],
      body := gzipB (bytes12.take 10) } := by decide

example : handleRequest cfgW fsW (baseReq "/missing") = sendErrorResponse 404 "404 Not Found" := by
  decide

example : handleRequest cfgW fsW (baseReq "/locked") =
    sendErrorResponse 500 "500 Internal Server Error" := by decide

example : handleRequest cfgW fsW (baseReq "/..%2f..%2fetc%2fpasswd") =
    sendErrorResponse 403 "403 Forbidden" := by decide

example : (handleRequest cfgW fsW (baseReq "/d")).status = 200 := by decide

example :
    handleRequest cfgW fsW (mkReq "/a.js" (some "bytes=5-2") none none) =
    sendErrorResponse 500 "500 Internal Server Error" := by decide

example :
    handleRequest cfgW fsW (mkReq "/a.js" none (some (md5B bytes12)) none) =
    { status := 304, headers := [], body := [] } := by decide

/-! ## Helper lemmas -/

theorem hfind_hset_self (hs : HeadersT) (k v : String) : hfind (hset hs k v) k = some v := by
  induction hs with
  | nil => simp [hset, hfind]
  | cons p rest ih =>
    obtain ⟨k', v'⟩ := p
    by_cases h : k' = k <;> simp [hset, hfind, h, ih]

theorem hfind_hset_ne (hs : HeadersT) (k k' v : String) (h : k' ≠ k) :
    hfind (hset hs k v) k' = hfind hs k' := by
  induction hs with
  | nil => simp [hset, hfind, Ne.symm h]
  | cons p rest ih =>
    obtain ⟨k₀, v₀⟩ := p
    by_cases h₀ : k₀ = k
    · simp [hset, hfind, h₀, Ne.symm h]
    · by_cases h₁ : k₀ = k'
      · simp [hset, hfind, h₀, h₁, h, ih]
      · simp [hset, hfind, h₀, h₁, h, ih]

theorem hexDigitChar_inj_fin :
    ∀ (m n : Fin 16), hexDigitChar m.val = hexDigitChar n.val → m = n := by decide

theorem byteHex_inj (a b : Byte) (h : byteHex a = byteHex b) : a = b := by
  simp only [byteHex, List.cons.injEq, and_true] at h
  obtain ⟨h₁, h₂⟩ := h
  have d1 : a.val / 16 < 16 := by omega
  have d2 : b.val / 16 < 16 := by omega
  have m1 : a.val % 16 < 16 := by omega
  have m2 : b.val % 16 < 16 := by omega
  have e1 := hexDigitChar_inj_fin ⟨a.val / 16, d1⟩ ⟨b.val / 16, d2⟩ h₁
  have e2 := hexDigitChar_inj_fin ⟨a.val % 16, m1⟩ ⟨b.val % 16, m2⟩ h₂
  have v1 : a.val / 16 = b.val / 16 := congrArg Fin.val e1
  have v2 : a.val % 16 = b.val % 16 := congrArg Fin.val e2
  have := Nat.div_add_mod a.val 16
  have := Nat.div_add_mod b.val 16
  exact Fin.ext (by omega)

theorem hexBytes_inj (as bs : List Byte) (h : hexBytes as = hexBytes bs) : as = bs := by
  induction as generalizing bs with
  | nil => cases bs with
    | nil => rfl
    | cons b rest => simp [hexBytes, byteHex] at h
  | cons a arest ih =>
    cases bs with
    | nil => simp [hexBytes, byteHex] at h
    | cons b rest =>
      simp only [hexBytes, byteHex, List.cons_append, List.nil_append,
        List.cons.injEq] at h
      obtain ⟨h₁, h₂, h₃⟩ := h
      have : a = b := byteHex_inj a b (by simp [byteHex, h₁, h₂])
      simp [this, ih rest h₃]

theorem md5B_inj (as bs : List Byte) (h : md5B as = md5B bs) : as = bs :=
  hexBytes_inj as bs (congrArg String.data h)

/-! ## C2 -/

/-- **C2, counterexample.**  The claim "whenever `parseRange` returns a
range, `start ≥ 0` and `end ≥ start`" is false: `bytes=5-2` at size 10 is
accepted with `end < start`, and `bytes=-500` at size 100 is accepted with
a negative start. -/
theorem claim_C2_counterexample :
    parseRange "bytes=5-2".data 10 = some ⟨some 5, some 2⟩ ∧
    parseRange "bytes=-500".data 100 = some ⟨some (-400), some 99⟩ ∧
    ¬ ((5 : Int) ≤ 2) ∧ ¬ ((0 : Int) ≤ -400) := by decide

/-- **C2, amended.**  Whenever `parseRange` returns a range, its `end`
field is a number strictly below the size, and its `start` field, when it
is a number, is strictly below the size.  (`start ≥ 0`, `end ≥ start`, and
`start` being a number are *not* guaranteed.) -/
theorem claim_C2_amended (range : List Char) (size : Int) (rg : RangeJS)
    (h : parseRange range size = some rg) :
    (∃ e, rg.stop = some e ∧ e < size) ∧ (∀ s, rg.start = some s → s < size) := by
  obtain ⟨rs, re⟩ := rg
  unfold parseRange at h
  cases hs : parseIntJS (splitCharL '-' (replaceFirstL "bytes=".data range))[0]? <;>
    cases he : parseIntJS (splitCharL '-' (replaceFirstL "bytes=".data range))[1]? <;>
      simp only [hs, he] at h <;> split at h <;>
        first
          | (injection h with h
             injection h with h1 h2
             subst h1
             subst h2)
          | injection h
  all_goals rename_i hg
  all_goals simp only [jsGeB, jsSubNaN, Bool.or_eq_true, decide_eq_true_eq, not_or,
    Bool.false_eq_true, false_or, or_false] at hg
  all_goals refine ⟨⟨_, rfl, by omega⟩, ?_⟩
  all_goals intro s hs'
  all_goals first
    | exact Option.noConfusion hs'
    | (have hvs : _ = s := Option.some.inj hs'
       omega)

theorem claim_C2_amended_witness :
    (∃ e, (RangeJS.mk (some 0) (some 5)).stop = some e ∧ e < 10) ∧
    (∀ s, (RangeJS.mk (some 0) (some 5)).start = some s → s < 10) :=
  claim_C2_amended "bytes=0-5".data 10 ⟨some 0, some 5⟩ (by decide)

/-! ## C3 -/

/-- **C3, counterexample.**  A `Range` header whose two numeric fields are
both malformed is *not* treated as unsatisfiable: `bytes=abc-xyz` at size
100 yields a range object with a `NaN` start instead of the `null`
sentinel.  Moreover the 416 response is not bodyless: it carries the
plain-text body `Range Not Satisfiable` (shown on a genuinely
unsatisfiable request, `bytes=500-` on a 5-byte file). -/
theorem claim_C3_counterexample :
    parseRange "bytes=abc-xyz".data 100 = some ⟨none, some 99⟩ ∧
    handleRequest cfgW fsW (mkReq "/a.txt" (some "bytes=500-") none none) =
      sendErrorResponse 416 "Range Not Satisfiable" ∧
    (sendErrorResponse 416 "Range Not Satisfiable").body ≠ [] := by decide

/-- **C3, amended.**  A `Range` header whose start field alone is
malformed is treated as a suffix range (`start = size - end`,
`end = size - 1`, subject to the usual `start >= size` guard) and one
whose end field alone is malformed as a prefix range (`end = size - 1`);
when both numeric fields fail to parse, `parseRange` returns a range
whose start is `NaN` and whose end is `size - 1` (not the unsatisfiable
sentinel); and every request whose `Range` header does parse to the
unsatisfiable sentinel is answered with HTTP 416 carrying the plain-text
body `Range Not Satisfiable`. -/
theorem claim_C3_amended :
    (∀ (range : List Char) (size : Int),
      parseIntJS (splitCharL '-' (replaceFirstL "bytes=".data range))[0]? = none →
      parseIntJS (splitCharL '-' (replaceFirstL "bytes=".data range))[1]? = none →
      parseRange range size = some ⟨none, some (size - 1)⟩) ∧
    (∀ (range : List Char) (size e : Int),
      parseIntJS (splitCharL '-' (replaceFirstL "bytes=".data range))[0]? = none →
      parseIntJS (splitCharL '-' (replaceFirstL "bytes=".data range))[1]? = some e →
      parseRange range size =
        (if size ≤ size - e then none
         else some ⟨some (size - e), some (size - 1)⟩)) ∧
    (∀ (range : List Char) (size s : Int),
      parseIntJS (splitCharL '-' (replaceFirstL "bytes=".data range))[0]? = some s →
      parseIntJS (splitCharL '-' (replaceFirstL "bytes=".data range))[1]? = none →
      parseRange range size =
        (if size ≤ s then none else some ⟨some s, some (size - 1)⟩)) ∧
    (∀ (fs : Fs) (req : Request) (filePath : String) (headers : HeadersT) (stats : Stats),
      parseRange (req.range.getD "").data (stats.size : Int) = none →
      sendRangeResponse fs req filePath headers stats =
        .ok (sendErrorResponse 416 "Range Not Satisfiable")) := by
  refine ⟨?_, ?_, ?_, ?_⟩
  · intro range size h0 h1
    unfold parseRange
    simp only [h0, h1, jsSubNaN, jsGeB]
    have hlt : ¬ (size ≤ size - 1) := by omega
    simp [hlt]
  · intro range size e h0 h1
    unfold parseRange
    simp only [h0, h1, jsSubNaN, jsGeB]
    have hlt : ¬ (size ≤ size - 1) := by omega
    simp [hlt]
  · intro range size s h0 h1
    unfold parseRange
    simp only [h0, h1, jsSubNaN, jsGeB]
    have hlt : ¬ (size ≤ size - 1) := by omega
    simp [hlt]
  · intro fs req filePath headers stats h
    unfold sendRangeResponse
    simp [h]

theorem claim_C3_amended_witness :
    parseRange "bytes=abc-xyz".data 100 = some ⟨none, some 99⟩ ∧
    parseRange "bytes=abc-5".data 100 = some ⟨some 95, some 99⟩ ∧
    parseRange "bytes=5-xyz".data 100 = some ⟨some 5, some 99⟩ ∧
    sendRangeResponse fsW (mkReq "/a.txt" (some "bytes=500-") none none) "/srv/root/a.txt"
        [] ⟨5, 0, false⟩ =
      .ok (sendErrorResponse 416 "Range Not Satisfiable") := by
  refine ⟨?_, ?_, ?_, ?_⟩
  · have h := claim_C3_amended.1 "bytes=abc-xyz".data 100 (by decide) (by decide)
    simpa using h
  · have h := claim_C3_amended.2.1 "bytes=abc-5".data 100 5 (by decide) (by decide)
    rw [h]
    decide
  · have h := claim_C3_amended.2.2.1 "bytes=5-xyz".data 100 5 (by decide) (by decide)
    rw [h]
    decide
  · exact claim_C3_amended.2.2.2 fsW (mkReq "/a.txt" (some "bytes=500-") none none)
      "/srv/root/a.txt" [] ⟨5, 0, false⟩ (by decide)

/-! ## C8 -/

/-- **C8.**  Files under 1 MiB are fingerprinted by hashing their entire
content — so the fingerprint is deterministic and, for small files, two
fingerprints agree exactly when the byte contents agree, whatever the
mtimes are; files of size ≥ 1 MiB are fingerprinted by hashing the pair
`(size, mtime-in-epoch-milliseconds)`. -/
theorem claim_C8 :
    (∀ (fs : Fs) (p : String) (c : List Byte) (m : Int),
      fs p = some (.file c m) → c.length < 1024 * 1024 →
      getETag fs p ⟨c.length, m, false⟩ = .ok (md5B c)) ∧
    (∀ (fs₁ fs₂ : Fs) (p₁ p₂ : String) (c₁ c₂ : List Byte) (m₁ m₂ : Int)
      (e₁ e₂ : String),
      fs₁ p₁ = some (.file c₁ m₁) → fs₂ p₂ = some (.file c₂ m₂) →
      c₁.length < 1024 * 1024 → c₂.length < 1024 * 1024 →
      getETag fs₁ p₁ ⟨c₁.length, m₁, false⟩ = .ok e₁ →
      getETag fs₂ p₂ ⟨c₂.length, m₂, false⟩ = .ok e₂ →
      (e₁ = e₂ ↔ c₁ = c₂)) ∧
    (∀ (fs : Fs) (p : String) (st : Stats), 1024 * 1024 ≤ st.size →
      getETag fs p st =
        .ok (md5B (strBytes (toString st.size ++ "-" ++ toString st.mtimeMs)))) := by
  refine ⟨?_, ?_, ?_⟩
  · intro fs p c m hfs hlen
    simp [getETag, hlen, readFileM, hfs]
  · intro fs₁ fs₂ p₁ p₂ c₁ c₂ m₁ m₂ e₁ e₂ h₁ h₂ l₁ l₂ g₁ g₂
    simp [getETag, l₁, readFileM, h₁] at g₁
    simp [getETag, l₂, readFileM, h₂] at g₂
    subst g₁; subst g₂
    exact ⟨fun h => md5B_inj c₁ c₂ h, fun h => by rw [h]⟩
  · intro fs p st hsz
    simp [getETag, Nat.not_lt.mpr hsz]

theorem claim_C8_witness :
    getETag fsW "/srv/root/a.txt" ⟨5, 0, false⟩ = .ok (md5B (strBytes "hello")) ∧
    (md5B (strBytes "hello") = md5B (strBytes "hellp") ↔
      strBytes "hello" = strBytes "hellp") ∧
    getETag fsW "/srv/root/a.txt" ⟨1048576, 123, false⟩ =
      .ok (md5B (strBytes "1048576-123")) := by
  have h1 := claim_C8.1 fsW "/srv/root/a.txt" (strBytes "hello") 0 (by decide) (by decide)
  have h2 := claim_C8.1 fsW "/srv/root/b.txt" (strBytes "hellp") 0 (by decide) (by decide)
  refine ⟨h1, ?_, ?_⟩
  · exact claim_C8.2.1 fsW fsW "/srv/root/a.txt" "/srv/root/b.txt"
      (strBytes "hello") (strBytes "hellp") 0 0 _ _ (by decide) (by decide)
      (by decide) (by decide) h1 h2
  · exact claim_C8.2.2 fsW "/srv/root/a.txt" ⟨1048576, 123, false⟩ (by decide)

/-! ## C10 -/

/-- **C10.**  Gzip acceptance is a substring test: compression is
considered accepted exactly when the `Accept-Encoding` header value
contains `gzip` anywhere (so `gzip;q=0` and `x-gzip` also enable it), and a
request without an `Accept-Encoding` header never compresses. -/
theorem claim_C10 :
    (∀ (req : Request) (filePath : String),
      shouldCompress req filePath = true ↔
        ∃ ae, req.acceptEncoding = some ae ∧ jsIncludes ae.data "gzip".data = true ∧
          toLowerStr (extname filePath) ∈ compressibleExtensions) ∧
    (∀ (req : Request) (filePath : String), req.acceptEncoding = none →
      shouldCompress req filePath = false) ∧
    shouldCompress (mkReq "/a.js" none none (some "gzip;q=0")) "/srv/root/a.js" = true ∧
    shouldCompress (mkReq "/a.js" none none (some "x-gzip")) "/srv/root/a.js" = true := by
  refine ⟨?_, ?_, by decide, by decide⟩
  · intro req filePath
    unfold shouldCompress
    cases hae : req.acceptEncoding with
    | none => simp
    | some ae =>
      by_cases hg : jsIncludes ae.data "gzip".data = true <;> simp [hg]
  · intro req filePath hae
    unfold shouldCompress
    simp [hae]

theorem claim_C10_witness :
    shouldCompress (mkReq "/a.png" none none none) "/srv/root/a.png" = false ∧
    shouldCompress (mkReq "/a.js" none none (some "gzip;q=0")) "/srv/root/a.js" = true :=
  ⟨claim_C10.2.1 (mkReq "/a.png" none none none) "/srv/root/a.png" rfl,
    claim_C10.2.2.1⟩

/-! ## C6 -/

/-- **C6** (evidence for the divergence).  On a satisfiable ranged request
for a compression-eligible `.js` file from a gzip-accepting client, the
emitted 206 response does *not* carry `Content-Encoding: gzip` and *does*
carry the raw-range `Content-Length` — `headers['Content-Encoding']` is
assigned only after `res.writeHead(206, headers)` has already captured the
header map — even though compression is eligible and the streamed body is
in fact gzip-recoded. -/
theorem claim_C6 :
    shouldCompress (mkReq "/a.js" (some "bytes=0-9") none (some "gzip")) "/srv/root/a.js" =
      true ∧
    (handleRequest cfgW fsW (mkReq "/a.js" (some "bytes=0-9") none (some "gzip"))).status =
      206 ∧
    hfind (handleRequest cfgW fsW
      (mkReq "/a.js" (some "bytes=0-9") none (some "gzip"))).headers "Content-Encoding" =
      none ∧
    hfind (handleRequest cfgW fsW
      (mkReq "/a.js" (some "bytes=0-9") none (some "gzip"))).headers "Content-Length" =
      some "10" ∧
    (handleRequest cfgW fsW (mkReq "/a.js" (some "bytes=0-9") none (some "gzip"))).body =
      gzipB (bytes12.take 10) := by decide

/-! ## C9 -/

/-- **C9.**  A "not found" outcome of the metadata probe on the resolved
request path is not an error: `getPathStats` swallows it (`.ok none`) and
the request is answered 404; any other filesystem-access failure is
rethrown by `getPathStats` and surfaces from the top-level handler as
500. -/
theorem claim_C9 (cfg : StaticConfig) (fs : Fs) (req : Request) (p : String)
    (hp : getRequestPath cfg req = .ok (some p)) :
    (fs p = none → getPathStats fs p = .ok none ∧
      handleRequest cfg fs req = sendErrorResponse 404 "404 Not Found") ∧
    (fs p = some .ioError → getPathStats fs p = .error "EACCES" ∧
      handleRequest cfg fs req = sendErrorResponse 500 "500 Internal Server Error") := by
  constructor
  · intro hfs
    refine ⟨by simp [getPathStats, hfs], ?_⟩
    simp [handleRequest, handleRequestE, hp, getPathStats, hfs]
  · intro hfs
    refine ⟨by simp [getPathStats, hfs], ?_⟩
    simp [handleRequest, handleRequestE, hp, getPathStats, hfs]

theorem claim_C9_witness :
    (getPathStats fsW "/srv/root/missing" = .ok none ∧
      handleRequest cfgW fsW (baseReq "/missing") = sendErrorResponse 404 "404 Not Found") ∧
    (getPathStats fsW "/srv/root/locked" = .error "EACCES" ∧
      handleRequest cfgW fsW (baseReq "/locked") =
        sendErrorResponse 500 "500 Internal Server Error") :=
  ⟨(claim_C9 cfgW fsW (baseReq "/missing") "/srv/root/missing" rfl).1 rfl,
    (claim_C9 cfgW fsW (baseReq "/locked") "/srv/root/locked" rfl).2 rfl⟩

/-! ## C1 -/

/-- **C1.**  Whenever the percent-decoded request pathname, joined onto the
configured root and normalized, does not begin with the root path, the
resolver returns the rejected sentinel (`null`) and the server answers 403
— containment is decided on the normalized path, after decoding. -/
theorem claim_C1 (cfg : StaticConfig) (fs : Fs) (req : Request) (d : String)
    (hd : decodeURIComponent (urlPathname req.url) = some d)
    (hesc : startsWithS (pathNormalize (pathJoin cfg.root d)) cfg.root = false) :
    getRequestPath cfg req = .ok none ∧
    handleRequest cfg fs req = sendErrorResponse 403 "403 Forbidden" := by
  have hgr : getRequestPath cfg req = .ok none := by
    unfold getRequestPath
    split
    · rfl
    · simp [hd, hesc]
  exact ⟨hgr, by simp [handleRequest, handleRequestE, hgr]⟩

theorem claim_C1_witness :
    getRequestPath cfgW (baseReq "/..%2f..%2fetc%2fpasswd") = .ok none ∧
    handleRequest cfgW fsW (baseReq "/..%2f..%2fetc%2fpasswd") =
      sendErrorResponse 403 "403 Forbidden" :=
  claim_C1 cfgW fsW (baseReq "/..%2f..%2fetc%2fpasswd") "/../../etc/passwd"
    (by decide) (by decide)

/-! ## C4 -/

/-- **C4.**  On a resolved file request whose `If-None-Match` header equals
the computed fingerprint or whose `If-Modified-Since` header equals the
formatted modification timestamp (either alone suffices), the server
answers 304 with no headers and an empty body — and the answer is the same
whatever the `Range` and `Accept-Encoding` headers are, i.e. no range
parsing and no compression processing affects it. -/
theorem claim_C4 (cfg : StaticConfig) (fs : Fs) (req : Request) (p : String)
    (c : List Byte) (m : Int) (etag : String)
    (hp : getRequestPath cfg req = .ok (some p))
    (hfile : fs p = some (.file c m))
    (he : getETag fs p ⟨c.length, m, false⟩ = .ok etag)
    (hc : req.ifNoneMatch = some etag ∨ req.ifModifiedSince = some (toUTCString m)) :
    ∀ (rg ae : Option String),
      handleRequest cfg fs
        { url := req.url, host := req.host, range := rg, ifNoneMatch := req.ifNoneMatch,
          ifModifiedSince := req.ifModifiedSince, acceptEncoding := ae } =
      { status := 304, headers := [], body := [] } := by
  intro rg ae
  have hp' : getRequestPath cfg
      { url := req.url, host := req.host, range := rg, ifNoneMatch := req.ifNoneMatch,
        ifModifiedSince := req.ifModifiedSince, acceptEncoding := ae } = .ok (some p) := hp
  have hic : (req.ifNoneMatch == some etag ||
      req.ifModifiedSince == some (toUTCString m)) = true := by
    rcases hc with h | h <;> simp [h]
  simp [handleRequest, handleRequestE, hp', getPathStats, hfile, finishRequest,
    getResponseHeaders, he, hic]

theorem claim_C4_witness :
    handleRequest cfgW fsW
      (mkReq "/a.js" (some "bytes=0-5") (some (md5B bytes12)) (some "gzip")) =
    { status := 304, headers := [], body := [] } :=
  claim_C4 cfgW fsW (mkReq "/a.js" none (some (md5B bytes12)) none) "/srv/root/a.js"
    bytes12 0 (md5B bytes12) rfl rfl rfl (Or.inl rfl) (some "bytes=0-5") (some "gzip")

/-! ## C7 -/

theorem shouldCompress_not_mem (req : Request) (p : String)
    (h : toLowerStr (extname p) ∉ compressibleExtensions) :
    shouldCompress req p = false := by
  unfold shouldCompress
  cases req.acceptEncoding with
  | none => rfl
  | some ae => by_cases hg : jsIncludes ae.data "gzip".data <;> simp [hg, h]

theorem shouldCompress_of_mem (req : Request) (p : String) (ae : String)
    (hae : req.acceptEncoding = some ae) (hg : jsIncludes ae.data "gzip".data = true)
    (h : toLowerStr (extname p) ∈ compressibleExtensions) :
    shouldCompress req p = true := by
  unfold shouldCompress
  simp [hae, hg, h]

/-- **C7.**  A response to a non-ranged file request is gzip-compressed
exactly when the client accepts gzip and the resolved file's extension is
in the fixed allow-list: the `Content-Encoding: gzip` header is present iff
`shouldCompress` holds, the body is gzip-recoded iff `shouldCompress`
holds, a `.png` file never gets the header, and a `.js` file from a
gzip-accepting client always does. -/
theorem claim_C7 (cfg : StaticConfig) (fs : Fs) (req : Request) (p : String)
    (c : List Byte) (m : Int) (etag : String)
    (hp : getRequestPath cfg req = .ok (some p))
    (hfile : fs p = some (.file c m))
    (he : getETag fs p ⟨c.length, m, false⟩ = .ok etag)
    (hnc : (req.ifNoneMatch == some etag ||
      req.ifModifiedSince == some (toUTCString m)) = false)
    (hr : req.range = none) :
    (hfind (handleRequest cfg fs req).headers "Content-Encoding" = some "gzip" ↔
      shouldCompress req p = true) ∧
    (handleRequest cfg fs req).body = (if shouldCompress req p then gzipB c else c) ∧
    (toLowerStr (extname p) = ".png" →
      hfind (handleRequest cfg fs req).headers "Content-Encoding" = none) ∧
    (toLowerStr (extname p) = ".js" →
      (∃ ae, req.acceptEncoding = some ae ∧ jsIncludes ae.data "gzip".data = true) →
      hfind (handleRequest cfg fs req).headers "Content-Encoding" = some "gzip") := by
  have hhr : handleRequest cfg fs req =
      (if shouldCompress req p then
        { status := 200,
          headers := hset [("Content-Type", (mimeGetType p).getD "application/octet-stream"),
            ("ETag", etag), ("Last-Modified", toUTCString m),
            ("Cache-Control",
              if toLowerStr (extname p) = ".html" then "no-cache, must-revalidate"
              else "public, max-age=31536000, immutable"),
            ("Accept-Ranges", "bytes")] "Content-Encoding" "gzip",
          body := gzipB c }
      else
        { status := 200,
          headers := hset [("Content-Type", (mimeGetType p).getD "application/octet-stream"),
            ("ETag", etag), ("Last-Modified", toUTCString m),
            ("Cache-Control",
              if toLowerStr (extname p) = ".html" then "no-cache, must-revalidate"
              else "public, max-age=31536000, immutable"),
            ("Accept-Ranges", "bytes")] "Content-Length" (toString c.length),
          body := c }) := by
    simp [handleRequest, handleRequestE, hp, getPathStats, hfile, finishRequest,
      getResponseHeaders, he, hnc, hr, sendFileResponse, readFileM]
    by_cases hsc : shouldCompress req p = true <;> simp [hsc]
  refine ⟨?_, ?_, ?_, ?_⟩
  · cases hsc : shouldCompress req p <;>
      simp [hhr, hsc, hfind_hset_self, hfind_hset_ne, hfind]
  · cases hsc : shouldCompress req p <;> simp [hhr, hsc]
  · intro hext
    have hsc : shouldCompress req p = false :=
      shouldCompress_not_mem req p (by rw [hext]; decide)
    simp [hhr, hsc, hfind_hset_ne, hfind]
  · rintro hext ⟨ae, hae, hg⟩
    have hsc : shouldCompress req p = true :=
      shouldCompress_of_mem req p ae hae hg (by rw [hext]; decide)
    simp [hhr, hsc, hfind_hset_self]

theorem claim_C7_witness :
    (hfind (handleRequest cfgW fsW (mkReq "/a.js" none none (some "gzip"))).headers
        "Content-Encoding" = some "gzip" ↔
      shouldCompress (mkReq "/a.js" none none (some "gzip")) "/srv/root/a.js" = true) ∧
    (handleRequest cfgW fsW (mkReq "/a.js" none none (some "gzip"))).body =
      (if shouldCompress (mkReq "/a.js" none none (some "gzip")) "/srv/root/a.js" then
        gzipB bytes12 else bytes12) ∧
    (toLowerStr (extname "/srv/root/a.js") = ".png" →
      hfind (handleRequest cfgW fsW (mkReq "/a.js" none none (some "gzip"))).headers
        "Content-Encoding" = none) ∧
    (toLowerStr (extname "/srv/root/a.js") = ".js" →
      (∃ ae, (mkReq "/a.js" none none (some "gzip")).acceptEncoding = some ae ∧
        jsIncludes ae.data "gzip".data = true) →
      hfind (handleRequest cfgW fsW (mkReq "/a.js" none none (some "gzip"))).headers
        "Content-Encoding" = some "gzip") :=
  claim_C7 cfgW fsW (mkReq "/a.js" none none (some "gzip")) "/srv/root/a.js"
    bytes12 0 (md5B bytes12) rfl rfl rfl rfl rfl

/-! ## C5 -/

theorem listIsPre_append (a b : List Char) : listIsPre a (a ++ b) = true := by
  induction a with
  | nil => rfl
  | cons c rest ih => simp [listIsPre, ih]

theorem replaceFirstL_of_pre (pat t : List Char) : replaceFirstL pat (pat ++ t) = t := by
  cases pat with
  | nil =>
    cases t with
    | nil => rfl
    | cons c rest => simp [replaceFirstL, listIsPre]
  | cons p ps =>
    simp [replaceFirstL, listIsPre, listIsPre_append, List.drop_left]

theorem splitCharL_not_mem (sep : Char) (l : List Char) (h : sep ∉ l) :
    splitCharL sep l = [l] := by
  induction l with
  | nil => rfl
  | cons c rest ih =>
    rw [List.mem_cons, not_or] at h
    obtain ⟨h1, h2⟩ := h
    simp [splitCharL, ih h2, Ne.symm h1]

theorem splitCharL_append (sep : Char) (a b : List Char) (h : sep ∉ a) :
    splitCharL sep (a ++ sep :: b) = a :: splitCharL sep b := by
  induction a with
  | nil => simp [splitCharL]
  | cons c rest ih =>
    rw [List.mem_cons, not_or] at h
    obtain ⟨h1, h2⟩ := h
    simp [splitCharL, ih h2, Ne.symm h1]

theorem isDigitChar_props (c : Char) (h : isDigitChar c = true) :
    jsWhitespace c = false ∧ ¬ (c = '-') ∧ ¬ (c = '+') := by
  unfold isDigitChar at h
  simp only [Bool.and_eq_true, decide_eq_true_eq] at h
  refine ⟨?_, ?_, ?_⟩
  · unfold jsWhitespace
    simp only [Bool.or_eq_false_iff, decide_eq_false_iff_not]
    omega
  · intro hh; subst hh; exact absurd h (by decide)
  · intro hh; subst hh; exact absurd h (by decide)

theorem digits_no_dash (ds : List Char) (h : ∀ c ∈ ds, isDigitChar c = true) :
    '-' ∉ ds := by
  intro hm
  exact absurd (h '-' hm) (by decide)

theorem takeWhile_digits (ds : List Char) (h : ∀ c ∈ ds, isDigitChar c = true) :
    ds.takeWhile isDigitChar = ds := by
  induction ds with
  | nil => rfl
  | cons c rest ih =>
    simp [List.takeWhile_cons, h c (List.mem_cons_self c rest),
      ih (fun x hx => h x (List.mem_cons_of_mem c hx))]

theorem parseIntJS_digits (ds : List Char) (hne : ds ≠ [])
    (h : ∀ c ∈ ds, isDigitChar c = true) :
    parseIntJS (some ds) = some ((digitsToNat ds : Nat) : Int) := by
  cases ds with
  | nil => exact absurd rfl hne
  | cons c rest =>
    have hc := h c (List.mem_cons_self c rest)
    obtain ⟨hws, hminus, hplus⟩ := isDigitChar_props c hc
    simp only [parseIntJS]
    rw [List.dropWhile_cons, if_neg (by simp [hws])]
    simp [hminus, hplus, parseNatDigits, takeWhile_digits _ h]

/-- **C5, counterexample.**  The claim's "on success the response has
status 206 …" fails for the accepted reversed range `bytes=5-2` at size 10:
`parseRange` accepts it (it is rejected only when `start ≥ size` or
`end ≥ size`), but read-stream creation then fails (`start > end`), so the
request ends in the top-level error path, not in a 206 response. -/
theorem claim_C5_counterexample :
    parseRange "bytes=5-2".data 12 = some ⟨some 5, some 2⟩ ∧
    handleRequest cfgW fsW (mkReq "/a.js" (some "bytes=5-2") none none) =
      sendErrorResponse 500 "500 Internal Server Error" ∧
    (sendErrorResponse 500 "500 Internal Server Error").status ≠ 206 := by decide

/-- **C5, amended.**  For a file of size `N` and a well-formed single-range
header `bytes=<start>-<end>` (over decimal digit strings): the suffix form
is interpreted as `start = N - end`, `end = N - 1`; the prefix form as
`end = N - 1`; the two-sided form as given; a range is rejected exactly
when (interpreted) `start ≥ N` or `end ≥ N`; and on success — provided
additionally `0 ≤ start ≤ end`, since an accepted range violating that
fails at read-stream creation and produces no 206 — the response has
status 206 with `Content-Range: bytes <start>-<end>/<N>` and
`Content-Length = end - start + 1`. -/
theorem claim_C5_amended :
    (∀ (N : Int) (sStr eStr : List Char),
      sStr ≠ [] → eStr ≠ [] →
      (∀ c ∈ sStr, isDigitChar c = true) → (∀ c ∈ eStr, isDigitChar c = true) →
      parseRange ("bytes=".data ++ sStr ++ '-' :: eStr) N =
        (if N ≤ (digitsToNat sStr : Int) ∨ N ≤ (digitsToNat eStr : Int) then none
         else some ⟨some (digitsToNat sStr : Int), some (digitsToNat eStr : Int)⟩)) ∧
    (∀ (N : Int) (eStr : List Char),
      eStr ≠ [] → (∀ c ∈ eStr, isDigitChar c = true) →
      parseRange ("bytes=".data ++ '-' :: eStr) N =
        (if N ≤ N - (digitsToNat eStr : Int) then none
         else some ⟨some (N - (digitsToNat eStr : Int)), some (N - 1)⟩)) ∧
    (∀ (N : Int) (sStr : List Char),
      sStr ≠ [] → (∀ c ∈ sStr, isDigitChar c = true) →
      parseRange ("bytes=".data ++ sStr ++ ['-']) N =
        (if N ≤ (digitsToNat sStr : Int) then none
         else some ⟨some (digitsToNat sStr : Int), some (N - 1)⟩)) ∧
    (∀ (fs : Fs) (req : Request) (filePath : String) (headers : HeadersT) (stats : Stats)
      (rs : String) (s e : Int) (c : List Byte) (m : Int),
      req.range = some rs →
      parseRange rs.data (stats.size : Int) = some ⟨some s, some e⟩ →
      0 ≤ s → s ≤ e →
      fs filePath = some (.file c m) →
      sendRangeResponse fs req filePath headers stats =
        .ok { status := 206,
              headers := hset (hset headers "Content-Range"
                ("bytes " ++ toString s ++ "-" ++ toString e ++ "/" ++ toString stats.size))
                "Content-Length" (toString (e - s + 1)),
              body := if shouldCompress req filePath then
                  gzipB ((c.drop s.toNat).take (e - s + 1).toNat)
                else (c.drop s.toNat).take (e - s + 1).toNat }) := by
  refine ⟨?_, ?_, ?_, ?_⟩
  · intro N sStr eStr hsne hene hsd hed
    have h1 : replaceFirstL "bytes=".data ("bytes=".data ++ (sStr ++ '-' :: eStr)) =
        sStr ++ '-' :: eStr := replaceFirstL_of_pre _ _
    have h2 : splitCharL '-' (sStr ++ '-' :: eStr) = sStr :: splitCharL '-' eStr :=
      splitCharL_append '-' sStr eStr (digits_no_dash sStr hsd)
    have h3 : splitCharL '-' eStr = [eStr] :=
      splitCharL_not_mem '-' eStr (digits_no_dash eStr hed)
    unfold parseRange
    rw [← List.append_assoc] at h1
    rw [h1, h2, h3]
    simp only [List.getElem?_cons_zero, List.getElem?_cons_succ]
    rw [parseIntJS_digits sStr hsne hsd, parseIntJS_digits eStr hene hed]
    simp [jsGeB]
  · intro N eStr hene hed
    have h1 : replaceFirstL "bytes=".data ("bytes=".data ++ '-' :: eStr) =
        '-' :: eStr := replaceFirstL_of_pre _ _
    have h3 : splitCharL '-' eStr = [eStr] :=
      splitCharL_not_mem '-' eStr (digits_no_dash eStr hed)
    have h2 : splitCharL '-' ('-' :: eStr) = [[], eStr] := by
      simp [splitCharL, h3]
    unfold parseRange
    rw [h1, h2]
    simp only [List.getElem?_cons_zero, List.getElem?_cons_succ]
    rw [parseIntJS_digits eStr hene hed]
    have hno : ¬ (N ≤ N - 1) := by omega
    simp [parseIntJS, jsSubNaN, jsGeB, hno]
  · intro N sStr hsne hsd
    have h1 : replaceFirstL "bytes=".data ("bytes=".data ++ (sStr ++ ['-'])) =
        sStr ++ ['-'] := replaceFirstL_of_pre _ _
    have h2 : splitCharL '-' (sStr ++ '-' :: ([] : List Char)) =
        sStr :: splitCharL '-' [] :=
      splitCharL_append '-' sStr [] (digits_no_dash sStr hsd)
    unfold parseRange
    rw [← List.append_assoc] at h1
    rw [h1, h2]
    simp only [splitCharL, List.getElem?_cons_zero, List.getElem?_cons_succ]
    rw [parseIntJS_digits sStr hsne hsd]
    have hno : ¬ (N ≤ N - 1) := by omega
    simp [parseIntJS, jsGeB, hno]
  · intro fs req filePath headers stats rs s e c m hrs hpr hs0 hse hfile
    unfold sendRangeResponse
    rw [hrs]
    simp only [Option.getD_some]
    rw [hpr]
    simp only [optIntStr, jsSub2, jsAddNaN]
    unfold createReadStreamSlice
    simp only [readFileM, hfile]
    by_cases hsc : shouldCompress req filePath <;> simp [hsc, hs0, hse]

theorem claim_C5_amended_witness :
    parseRange "bytes=2-5".data 12 = some ⟨some 2, some 5⟩ ∧
    sendRangeResponse fsW (mkReq "/a.js" (some "bytes=2-5") none none) "/srv/root/a.js"
        [] ⟨12, 0, false⟩ =
      .ok { status := 206,
            headers := [("Content-Range", "bytes 2-5/12"), ("Content-Length", "4")],
            body := (bytes12.drop 2).take 4 } := by
  constructor
  · have h := claim_C5_amended.1 12 "2".data "5".data (by decide) (by decide)
      (by decide) (by decide)
    rw [show ("bytes=".data ++ "2".data ++ '-' :: "5".data) = "bytes=2-5".data from rfl] at h
    rw [h]
    decide
  · have h := claim_C5_amended.2.2.2 fsW (mkReq "/a.js" (some "bytes=2-5") none none)
      "/srv/root/a.js" [] ⟨12, 0, false⟩ "bytes=2-5" 2 5 bytes12 0 rfl (by decide)
      (by decide) (by decide) rfl
    rw [h]
    rfl

end Explorer
